import Mathlib

/-!
Shallow embedding of the reactive dependency-tracking core of the
vue-2.5.17-beta.0-analysis repository (src/core/observer/dep.js,
src/core/observer/watcher.js, src/core/observer/index.js,
src/core/observer/array.js, src/core/observer/scheduler.js,
src/core/instance/state.js), together with theorems settling the claims
about it.  Every definition is translated directly from the JavaScript
source; comments cite the function being embedded.
-/

namespace Vue

/--
JavaScript runtime values as far as the observer code distinguishes them:
numbers (with `nan` split out because `NaN === NaN` is false), strings,
booleans, `null`, `undefined`, and reference values (plain objects/arrays,
identified by a reference id).  `obj` stands for exactly the values for
which `isObject` in src/shared/util.js returns true.
-/
inductive JSValue where
  | num (n : Int)
  | nan
  | str (s : String)
  | bool (b : Bool)
  | null
  | undef
  | obj (id : Nat)
deriving DecidableEq

/-- JavaScript strict equality `===` restricted to `JSValue`:
reference equality on objects, value equality on primitives, and
`NaN === NaN` is `false`. -/
def jsStrictEq : JSValue → JSValue → Bool
  | .num a, .num b => a == b
  | .nan, _ => false
  | _, .nan => false
  | .str a, .str b => a == b
  | .bool a, .bool b => a == b
  | .null, .null => true
  | .undef, .undef => true
  | .obj a, .obj b => a == b
  | _, _ => false

/-- `isObject` from src/shared/util.js: `obj !== null && typeof obj === 'object'`. -/
def isObject : JSValue → Bool
  | .obj _ => true
  | _ => false

/--
The no-op test of `reactiveSetter` in src/core/observer/index.js
(`defineReactive`): `newVal === value || (newVal !== newVal && value !== value)`.
Two values that are each not strictly equal to themselves (NaN) count as
identical.
-/
def setterSameValue (newVal value : JSValue) : Bool :=
  jsStrictEq newVal value || (!jsStrictEq newVal newVal && !jsStrictEq value value)

/--
The closed-over state of one reactive property installed by
`defineReactive` (src/core/observer/index.js): the captured value `val`,
whether the child observer `childOb` is present, and the `shallow` flag.
The per-property `dep` is represented by counting its `notify()` calls in
`reactiveSetter`.
-/
structure PropCell where
  val : JSValue
  childOb : Bool
  shallow : Bool
deriving DecidableEq

/--
`reactiveSetter` from `defineReactive` (src/core/observer/index.js,
set branch, for an ordinary data property with no pre-defined
getter/setter): returns the updated cell and the number of `dep.notify()`
calls made.  `childOb = !shallow && observe(newVal)` is represented by its
success condition for a plain object/array value.
-/
def reactiveSetter (c : PropCell) (newVal : JSValue) : PropCell × Nat :=
  if setterSameValue newVal c.val then (c, 0)
  else ({ val := newVal, childOb := !c.shallow && isObject newVal, shallow := c.shallow }, 1)

/--
The fields of a `Watcher` (src/core/observer/watcher.js) that its
`update`/`getAndInvoke`/`evaluate` methods consult.  `subsCount` is
`this.dep.subs.length`, the number of subscribers of the computed
watcher's own `Dep` (only computed watchers allocate one).
-/
structure CompWatcher where
  deep : Bool
  user : Bool
  computed : Bool
  sync : Bool
  dirty : Bool
  active : Bool
  value : JSValue
  subsCount : Nat
deriving DecidableEq

/--
What a call to `Watcher.update` did, besides updating the watcher's own
fields: nothing but marking dirty, notifying the computed watcher's own
`Dep`, recomputing without notifying, running synchronously, or being
handed to `queueWatcher`.
-/
inductive UpdateEffect where
  | markedDirtyOnly
  | notifiedOwnDep
  | recomputedSilent
  | ranSync
  | enqueued
deriving DecidableEq

/--
The re-run condition of `Watcher.getAndInvoke` (src/core/observer/watcher.js):
`value !== this.value || isObject(value) || this.deep`.
-/
def getAndInvokeFires (w : CompWatcher) (newVal : JSValue) : Bool :=
  !jsStrictEq newVal w.value || isObject newVal || w.deep

/--
`Watcher.update` (src/core/observer/watcher.js), with the result of
re-running the getter supplied as `newVal` (the getter itself is opaque
here; `newVal` is only consulted on the branches that actually call
`this.get()` through `getAndInvoke`).  For a computed watcher with
subscribers the callback passed to `getAndInvoke` is
`() => this.dep.notify()`; whether it ran is reported as
`UpdateEffect.notifiedOwnDep`.
-/
def watcherUpdate (w : CompWatcher) (newVal : JSValue) : CompWatcher × UpdateEffect :=
  if w.computed then
    if w.subsCount = 0 then
      ({ w with dirty := true }, .markedDirtyOnly)
    else
      -- getAndInvoke (() => this.dep.notify())
      if getAndInvokeFires w newVal then
        ({ w with value := newVal, dirty := false }, .notifiedOwnDep)
      else (w, .recomputedSilent)
  else if w.sync then
    -- this.run(): if active, getAndInvoke(this.cb)
    if w.active then
      if getAndInvokeFires w newVal then
        ({ w with value := newVal, dirty := false }, .ranSync)
      else (w, .ranSync)
    else (w, .ranSync)
  else (w, .enqueued)

/--
`Watcher.evaluate` (src/core/observer/watcher.js): recompute only when
dirty; `newVal` is the result `this.get()` would produce.
-/
def watcherEvaluate (w : CompWatcher) (newVal : JSValue) : CompWatcher :=
  if w.dirty then { w with value := newVal, dirty := false } else w

/--
The global dependency-recording state of src/core/observer/dep.js:
`Dep.target` (the currently evaluating watcher, or none) and
`targetStack`.  Only truthy watchers are ever pushed onto `targetStack`,
so its elements are plain watcher ids.  `cleanups` counts calls to
`cleanupDeps` and `reported` records the contexts handed to
`handleError`, so that `Watcher.get` can be embedded over this state.
-/
structure TrackState where
  target : Option Nat
  stack : List Nat
  cleanups : Nat
  reported : List String
deriving DecidableEq

/-- `pushTarget` (src/core/observer/dep.js):
`if (Dep.target) targetStack.push(Dep.target); Dep.target = _target`.
The head of `stack` is the top of `targetStack`. -/
def pushTarget (t : Option Nat) (s : TrackState) : TrackState :=
  match s.target with
  | some w => { s with stack := w :: s.stack, target := t }
  | none => { s with target := t }

/-- `popTarget` (src/core/observer/dep.js): `Dep.target = targetStack.pop()`
(`pop` of an empty array yields `undefined`, i.e. `none`). -/
def popTarget (s : TrackState) : TrackState :=
  { s with target := s.stack.head?, stack := s.stack.tail }

/--
Identifying data of a watcher used by `Watcher.get`, `getAndInvoke` and
the scheduler's circular-update warning: its id, the `user` flag, the
`deep` flag and the `expression` string.
-/
structure WatcherMeta where
  id : Nat
  user : Bool
  deep : Bool
  expression : String
deriving DecidableEq

/-- The context string `handleError` receives from `Watcher.get` when a
user watcher's getter throws. -/
def getterErrorContext (w : WatcherMeta) : String :=
  "getter for watcher \"" ++ w.expression ++ "\""

/-- The context string `handleError` receives from `Watcher.getAndInvoke`
when a user watcher's callback throws. -/
def callbackErrorContext (w : WatcherMeta) : String :=
  "callback for watcher \"" ++ w.expression ++ "\""

/-- Record a `handleError` call. -/
def reportError (ctx : String) (s : TrackState) : TrackState :=
  { s with reported := s.reported ++ [ctx] }

/-- Record a `cleanupDeps` call; the reconciliation it performs on the
watcher's dependency sets is embedded separately as `DepGraph.cleanupDeps`. -/
def markCleanup (s : TrackState) : TrackState :=
  { s with cleanups := s.cleanups + 1 }

/--
`Watcher.get` (src/core/observer/watcher.js), with the outcome of
`this.getter.call(vm, vm)` supplied as `outcome` (`Except` models a
JavaScript throw).  Returns the final tracking state and either the value
`get` returns (`Except.ok`; on a swallowed user-getter failure the local
`value` is still `undefined`) or the exception it re-throws
(`Except.error`).  The `try/catch/finally` order is preserved:
`handleError` runs in the catch, `popTarget` and `cleanupDeps` run in the
finally on every path.  (`traverse` for deep watchers only triggers
further reads and is not part of this state.)
-/
def watcherGet (w : WatcherMeta) (outcome : Except String JSValue) (s : TrackState) :
    TrackState × Except String JSValue :=
  let s1 := pushTarget (some w.id) s
  match outcome with
  | .ok v => (markCleanup (popTarget s1), .ok v)
  | .error e =>
    if w.user then
      (markCleanup (popTarget (reportError (getterErrorContext w) s1)), .ok JSValue.undef)
    else
      (markCleanup (popTarget s1), .error e)

/--
The callback invocation at the end of `Watcher.getAndInvoke`
(src/core/observer/watcher.js): for a user watcher the call is wrapped in
`try { .. } catch (e) { handleError(e, ..) }`; otherwise the callback is
invoked directly and a throw propagates.
-/
def invokeCallback (w : WatcherMeta) (cbOutcome : Except String Unit) (s : TrackState) :
    TrackState × Except String Unit :=
  if w.user then
    match cbOutcome with
    | .ok _ => (s, .ok ())
    | .error _ => (reportError (callbackErrorContext w) s, .ok ())
  else (s, cbOutcome)

/--
One watcher's dependency bookkeeping (src/core/observer/watcher.js)
together with the subscriber lists of all `Dep` instances
(src/core/observer/dep.js).  `wid` is the watcher's id; `deps`/`depIds`
are the previous cycle's dependency list and id set, `newDeps`/`newDepIds`
the current cycle's; `subs d` is the subscriber list (watcher ids, in
subscription order) of the `Dep` with id `d`.  `Dep.addSub` pushes,
`Dep.removeSub` uses `remove` from src/shared/util.js, which splices out
the first occurrence — i.e. `List.erase`.
-/
structure DepGraph where
  wid : Nat
  deps : List Nat
  newDeps : List Nat
  depIds : List Nat
  newDepIds : List Nat
  subs : Nat → List Nat

/--
`Watcher.addDep` (src/core/observer/watcher.js): add `id` to the
current-cycle set and list only if not already there this cycle, and call
`dep.addSub(this)` only if it was not a dependency last cycle either.
(`SimpleSet.add` is modelled as consing onto the id set; only membership
in the set is ever consulted.)
-/
def addDep (g : DepGraph) (id : Nat) : DepGraph :=
  if id ∈ g.newDepIds then g
  else
    let g1 := { g with newDepIds := id :: g.newDepIds, newDeps := g.newDeps ++ [id] }
    if id ∈ g.depIds then g1
    else { g1 with subs := fun d => if d = id then g1.subs d ++ [g.wid] else g1.subs d }

/--
The removal pass of `Watcher.cleanupDeps` (src/core/observer/watcher.js):
for every dep of the previous cycle that was not re-read this cycle,
`dep.removeSub(this)`.  The source iterates `deps` from the last index
down to 0; this function is applied to `deps.reverse`.
-/
def removeOldSubs (wid : Nat) (newDepIds : List Nat) : List Nat → (Nat → List Nat) → Nat → List Nat
  | [], subs => subs
  | d :: rest, subs =>
    removeOldSubs wid newDepIds rest
      (if d ∈ newDepIds then subs
       else fun x => if x = d then (subs x).erase wid else subs x)

/--
`Watcher.cleanupDeps` (src/core/observer/watcher.js): remove the watcher
from every dep read last cycle but not this cycle, then swap
current/previous sets and lists and clear the new current ones.
-/
def cleanupDeps (g : DepGraph) : DepGraph :=
  { g with subs := removeOldSubs g.wid g.newDepIds g.deps.reverse g.subs
           depIds := g.newDepIds
           newDepIds := []
           deps := g.newDeps
           newDeps := [] }

/--
The invariant tying one watcher's dependency bookkeeping to the `Dep`
subscriber lists, maintained by `addDep`/`cleanupDeps`
(src/core/observer/watcher.js): the watcher appears exactly once in the
subscriber list of every `Dep` it read this cycle or last cycle and in no
other, and the dep lists agree with the dep id sets.
-/
def DepInv (g : DepGraph) : Prop :=
  (∀ d, (g.subs d).count g.wid = if d ∈ g.depIds ∨ d ∈ g.newDepIds then 1 else 0) ∧
  (∀ d, d ∈ g.deps ↔ d ∈ g.depIds) ∧
  (∀ d, d ∈ g.newDeps ↔ d ∈ g.newDepIds)

/--
`Dep.depend` (src/core/observer/dep.js) as seen by one watcher's
dependency sets `g`: `if (Dep.target) Dep.target.addDep(this)`.  When no
computation is active it is a no-op, which is what suspends dependency
recording while `pushTarget()` (with no argument) is in effect, as in
`getData` (src/core/instance/state.js).
-/
def depend (target : Option Nat) (g : DepGraph) (depId : Nat) : DepGraph :=
  match target with
  | none => g
  | some _ => addDep g depId

/-- `MAX_UPDATE_COUNT` (src/core/observer/scheduler.js). -/
def MAX_UPDATE_COUNT : Nat := 100

/--
The scheduler's module-level state (src/core/observer/scheduler.js):
`queue` holds the pending watchers (by id, since the queue is ordered and
spliced by `watcher.id`), `has` is the presence set (`has[id] = true`),
`circular` the per-id re-entry counters of the dev build, plus the
`waiting`/`flushing` flags and the flush cursor `index`.
-/
structure Sched where
  queue : List Nat
  has : List Nat
  circular : Nat → Nat
  waiting : Bool
  flushing : Bool
  index : Nat

/--
The splice-position loop of `queueWatcher` (src/core/observer/scheduler.js):
`let i = queue.length - 1; while (i > index && queue[i].id > watcher.id) i--`.
The argument of `spliceLoop` is the running value of `i`.
-/
def spliceLoop (queue : List Nat) (index id : Nat) : Nat → Nat
  | 0 => 0
  | i + 1 =>
    if index < i + 1 ∧ id < queue.getD (i + 1) 0 then spliceLoop queue index id i
    else i + 1

/-- `queue.splice(pos, 0, id)`: insert `id` at position `pos`. -/
def spliceIn (queue : List Nat) (pos : Nat) (id : Nat) : List Nat :=
  queue.take pos ++ id :: queue.drop pos

/-- The insertion position `i + 1` computed by `queueWatcher` while a
flush is running. -/
def splicePos (queue : List Nat) (index id : Nat) : Nat :=
  spliceLoop queue index id (queue.length - 1) + 1

/--
`queueWatcher` (src/core/observer/scheduler.js): dedup on `has`; while
not flushing, append; while flushing, splice into the queue by id behind
the cursor; schedule a flush (`waiting`) if none is pending.
For an empty queue the JavaScript loop starts at `i = -1` and inserts at
position 0, which yields the same one-element queue as `spliceIn [] 1 id`,
so clamping `queue.length - 1` at 0 is faithful.
-/
def queueWatcher (s : Sched) (id : Nat) : Sched :=
  if id ∈ s.has then s
  else
    let s1 := { s with has := id :: s.has }
    let s2 :=
      if ¬s1.flushing then { s1 with queue := s1.queue ++ [id] }
      else { s1 with queue := spliceIn s1.queue (splicePos s1.queue s1.index id) id }
    if ¬s2.waiting then { s2 with waiting := true } else s2

/-- The dev-build warning text of `flushSchedulerQueue`
(src/core/observer/scheduler.js) for a circular update. -/
def circularWarn (user : Bool) (expression : String) : String :=
  "You may have an infinite update loop " ++
    (if user then ("in watcher with expression \"" ++ expression ++ "\"")
     else ("in a component render function."))

/-- Outcome of a flush: the scheduler state after `resetSchedulerState`,
the watchers in the order they were run, the circular-update warning if
one fired, and whether the loop finished (`completed = false` only when
the modelling fuel ran out, which no theorem relies on). -/
structure FlushResult where
  sched : Sched
  log : List Nat
  diag : Option String
  completed : Bool

/-- `resetSchedulerState` (src/core/observer/scheduler.js). -/
def resetSchedulerState (s : Sched) : Sched :=
  { s with index := 0, queue := [], has := [], circular := fun _ => 0,
           waiting := false, flushing := false }

/--
The `for` loop of `flushSchedulerQueue` (src/core/observer/scheduler.js).
`effects w` lists, in order, the ids that `watcher.run()` for `w` hands to
`queueWatcher` as a side effect (a run that writes reactive data notifies
deps, whose subscribers enqueue themselves); `wuser`/`wexpr` give each
watcher's `user` flag and `expression` for the circular-update warning.
Per iteration: read `queue[index]`, clear `has[id]`, run the watcher, then
the dev-build circular check — `if (has[id] != null)` increment
`circular[id]` and `break` past `MAX_UPDATE_COUNT`.  `fuel` bounds the
number of iterations of this loop, which the source does not bound.
-/
def flushLoop (effects : Nat → List Nat) (wuser : Nat → Bool) (wexpr : Nat → String) :
    Nat → Sched → List Nat → FlushResult
  | 0, s, log => ⟨s, log, none, false⟩
  | fuel + 1, s, log =>
    if h : s.index < s.queue.length then
      let id := s.queue.get ⟨s.index, h⟩
      let s1 := { s with has := s.has.erase id }
      let s2 := (effects id).foldl queueWatcher s1
      if id ∈ s2.has then
        let c := s2.circular id + 1
        let s3 := { s2 with circular := fun x => if x = id then c else s2.circular x }
        if MAX_UPDATE_COUNT < c then
          ⟨s3, log ++ [id], some (circularWarn (wuser id) (wexpr id)), true⟩
        else
          flushLoop effects wuser wexpr fuel { s3 with index := s3.index + 1 } (log ++ [id])
      else
        flushLoop effects wuser wexpr fuel { s2 with index := s2.index + 1 } (log ++ [id])
    else ⟨s, log, none, true⟩

/--
`flushSchedulerQueue` (src/core/observer/scheduler.js): set `flushing`,
sort the queue ascending by watcher id (`queue.sort((a, b) => a.id - b.id)`),
iterate with the live cursor, then `resetSchedulerState`.  The post-phase
`updated`/`activated` hooks only call back into collaborators and are not
part of this state.
-/
def flushSchedulerQueue (effects : Nat → List Nat) (wuser : Nat → Bool) (wexpr : Nat → String)
    (fuel : Nat) (s : Sched) : FlushResult :=
  let s1 := { s with flushing := true, queue := s.queue.mergeSort (fun a b => a ≤ b), index := 0 }
  let r := flushLoop effects wuser wexpr fuel s1 []
  { r with sched := resetSchedulerState r.sched }

/--
A property key as `set`/`del` (src/core/observer/index.js) classify it:
`idx n` stands for the keys `isValidArrayIndex` accepts (a non-negative
integer), `str s` for every other key (JavaScript property keys are
strings; an `idx` key used on a non-array target is the string `toString n`).
-/
inductive SetKey where
  | idx (n : Nat)
  | str (s : String)
deriving DecidableEq

/-- The property key actually used on the object path of `set`. -/
def SetKey.asString : SetKey → String
  | .idx n => toString n
  | .str s => s

/-- One own property of a target object: its key, current value, and
whether it was installed as a reactive property (`defineReactive`). -/
structure Field where
  key : String
  val : JSValue
  reactive : Bool
deriving DecidableEq

/--
A target container as `set` (src/core/observer/index.js) inspects it:
array or plain object, its elements/own fields, the `_isVue` marker, the
presence of a `__ob__` wrapper, and the wrapper's `vmCount`.
-/
structure SetTarget where
  isArr : Bool
  elems : List JSValue
  fields : List Field
  isVue : Bool
  hasOb : Bool
  vmCount : Nat
deriving DecidableEq

/-- Which branch of `set` executed. -/
inductive SetOutcome where
  | viaSplice
  | viaAssign
  | rootGuard
  | plainAssign
  | installed
deriving DecidableEq

/--
The array branch of `set`: `target.length = Math.max(target.length, key)`
followed by `target.splice(key, 1, val)`.  Growing the length fills the
gap with holes, which read back as `undefined`; `splice(k, 1, v)` then
replaces (or, at the end, appends) the element at `k`.
-/
def growSplice (l : List JSValue) (k : Nat) (v : JSValue) : List JSValue :=
  let l2 := if l.length < k then l ++ List.replicate (k - l.length) JSValue.undef else l
  l2.take k ++ v :: l2.drop (k + 1)

/-- Replace the value of the field named `key`. -/
def setField (fields : List Field) (key : String) (v : JSValue) : List Field :=
  fields.map fun f => if f.key = key then { f with val := v } else f

/--
The non-array path of `set` (src/core/observer/index.js), from the
`key in target` test onwards.  The last component of the result counts the
structural `notifyAll` calls — the `ob.dep.notify()` at the end of the
new-property path (a reactive existing field notifies through its own
property `dep` in `reactiveSetter`, which is not structural and is not
counted here).  The dev-only warnings are omitted; the early returns they
accompany are kept.
-/
def setObjectPath (t : SetTarget) (key : String) (v : JSValue) : SetTarget × SetOutcome × Nat :=
  if t.fields.any (fun f => f.key = key) then
    -- key in target && !(key in Object.prototype): target[key] = val
    ({ t with fields := setField t.fields key v }, .viaAssign, 0)
  else if t.isVue ∨ (t.hasOb ∧ t.vmCount ≠ 0) then
    -- dev warning; return val without touching the target
    (t, .rootGuard, 0)
  else if ¬t.hasOb then
    ({ t with fields := t.fields ++ [⟨key, v, false⟩] }, .plainAssign, 0)
  else
    -- defineReactive(ob.value, key, val); ob.dep.notify()
    ({ t with fields := t.fields ++ [⟨key, v, true⟩] }, .installed, 1)

/--
`set` (src/core/observer/index.js): returns the updated target, the
branch taken, and the number of structural `notifyAll` calls made.  On
the array branch `target.splice` is the intercepted mutator only when the
array is wrapped (`__ob__` present, its prototype patched by `Observer`),
so the structural notification fires once for a wrapped array and never
for a plain one.
-/
def set (t : SetTarget) (k : SetKey) (v : JSValue) : SetTarget × SetOutcome × Nat :=
  match k, t.isArr with
  | .idx n, true =>
    -- Array.isArray(target) && isValidArrayIndex(key)
    ({ t with elems := growSplice t.elems n v }, .viaSplice, if t.hasOb then 1 else 0)
  | k, _ => setObjectPath t k.asString v

/--
The seven intercepted array operations (src/core/observer/array.js).
Arguments are carried in the constructors; `sortOp` takes the comparator
passed to `sort` (the interceptor forwards whatever arguments it gets to
the original method).
-/
inductive ArrOp where
  | push (args : List JSValue)
  | pop
  | shift
  | unshift (args : List JSValue)
  | splice (start : Int) (deleteCount : Int) (items : List JSValue)
  | sortOp (le : JSValue → JSValue → Bool)
  | reverse

/-- A JavaScript return value of an array method: a single value or an
array of values (`splice` returns the removed elements, `sort`/`reverse`
return the array itself). -/
inductive OpRet where
  | val (v : JSValue)
  | list (l : List JSValue)

/-- `Array.prototype.splice` index/count clamping (ECMAScript):
a negative start counts from the end, the delete count is clamped to
`[0, length - start]`. -/
def spliceClamp (len : Nat) (start deleteCount : Int) : Nat × Nat :=
  let s := if start < 0 then (max ((len : Int) + start) 0).toNat else min start.toNat len
  (s, (min (max deleteCount 0) ((len : Int) - s)).toNat)

/--
The original (uninstrumented) `Array.prototype` methods, as list
transformations: each returns the new contents and the JavaScript return
value.  `sort` with comparator `le` is modelled as a stable merge sort.
-/
def origApply : ArrOp → List JSValue → List JSValue × OpRet
  | .push args, l => (l ++ args, .val (.num ((l.length + args.length : Nat) : Int)))
  | .pop, l => (l.dropLast, .val ((l.getLast?).getD .undef))
  | .shift, l => (l.tail, .val ((l.head?).getD .undef))
  | .unshift args, l => (args ++ l, .val (.num ((args.length + l.length : Nat) : Int)))
  | .splice start deleteCount items, l =>
    let (s, dc) := spliceClamp l.length start deleteCount
    (l.take s ++ items ++ l.drop (s + dc), .list ((l.drop s).take dc))
  | .sortOp le, l => (l.mergeSort le, .list (l.mergeSort le))
  | .reverse, l => (l.reverse, .list l.reverse)

/-- The `inserted` computation of the interceptor (src/core/observer/array.js):
`push`/`unshift` insert their arguments, `splice` inserts `args.slice(2)`. -/
def insertedOf : ArrOp → List JSValue
  | .push args => args
  | .unshift args => args
  | .splice _ _ items => items
  | _ => []

/-- The reference id of a value `observe` would wrap (a plain object or
array), if any. -/
def objId : JSValue → Option Nat
  | .obj i => some i
  | _ => none

/--
A wrapped (observed) array: its contents, the set of reference ids its
observer has wrapped (`observeArray` calls `observe` on each element),
and the subscribers of the wrapper's structural dep (`__ob__.dep`).
-/
structure WrappedArr where
  elems : List JSValue
  wrappedIds : List Nat
  subs : List Nat

/-- Result of one intercepted mutation: the array afterwards, the original
return value, the watcher ids `dep.notify()` invoked `update` on (the
subscriber list snapshot), and how many times `notify` was called. -/
structure MutResult where
  arr : WrappedArr
  ret : OpRet
  notified : List Nat
  notifyCalls : Nat

/--
`mutator` (src/core/observer/array.js): run the cached original method,
wrap any newly inserted elements (`ob.observeArray(inserted)`), then
`ob.dep.notify()` exactly once, which invokes `update` on a snapshot of
the wrapper dep's subscriber list (src/core/observer/dep.js, `notify`).
The original method's return value is passed through.
-/
def mutator (a : WrappedArr) (op : ArrOp) : MutResult :=
  let (res, ret) := origApply op a.elems
  let inserted := insertedOf op
  { arr := { elems := res
             wrappedIds := a.wrappedIds ++ inserted.filterMap objId
             subs := a.subs }
    ret := ret
    notified := a.subs
    notifyCalls := 1 }

/-! ## Claim theorems -/

/--
Claim C2: assigning to a reactive property a value identical to the
current one (strict equality, with two self-unequal values — both NaN —
also counting as identical) leaves the stored value unchanged and fires
no notification; otherwise the setter stores the new value, re-wraps it
when it is an object/array (and the property is not shallow), and calls
the property's `dep.notify()` exactly once.
-/
theorem reactiveSetter_spec (c : PropCell) (v : JSValue) :
    ((jsStrictEq v c.val = true ∨ (jsStrictEq v v = false ∧ jsStrictEq c.val c.val = false)) →
      reactiveSetter c v = (c, 0)) ∧
    ((jsStrictEq v c.val = false ∧ (jsStrictEq v v = true ∨ jsStrictEq c.val c.val = true)) →
      (reactiveSetter c v).1.val = v ∧
      (reactiveSetter c v).1.childOb = (!c.shallow && isObject v) ∧
      (reactiveSetter c v).2 = 1) := by
  constructor
  · intro h
    have hs : setterSameValue v c.val = true := by
      rcases h with h | ⟨h1, h2⟩
      · simp [setterSameValue, h]
      · simp [setterSameValue, h1, h2]
    simp [reactiveSetter, hs]
  · rintro ⟨h1, h2⟩
    have hs : setterSameValue v c.val = false := by
      rcases h2 with h2 | h2 <;> simp [setterSameValue, h1, h2]
    simp [reactiveSetter, hs]

/-- Witness for C2 at concrete inputs: a both-NaN write is a no-op, and a
write of a fresh object both stores and re-wraps it with one notification. -/
theorem reactiveSetter_spec_witness :
    reactiveSetter ⟨JSValue.nan, false, false⟩ JSValue.nan = (⟨JSValue.nan, false, false⟩, 0) ∧
    ((reactiveSetter ⟨JSValue.num 1, false, false⟩ (JSValue.obj 7)).1.val = JSValue.obj 7 ∧
      (reactiveSetter ⟨JSValue.num 1, false, false⟩ (JSValue.obj 7)).1.childOb =
        (!false && isObject (JSValue.obj 7)) ∧
      (reactiveSetter ⟨JSValue.num 1, false, false⟩ (JSValue.obj 7)).2 = 1) :=
  ⟨(reactiveSetter_spec ⟨JSValue.nan, false, false⟩ JSValue.nan).1 (by decide),
   (reactiveSetter_spec ⟨JSValue.num 1, false, false⟩ (JSValue.obj 7)).2 (by decide)⟩

/--
Counterexample to claim C1 as stated: a computed watcher with a
subscriber whose getter produces NaN when its cached value is already NaN.
By the property-setter equality rule the new value does not differ from
the old (`setterSameValue` holds), yet `update` notifies the watcher's
own `Dep` (`getAndInvoke` fires because `NaN !== NaN`).
-/
theorem watcherUpdate_nan_counterexample :
    setterSameValue JSValue.nan
        (⟨false, false, true, false, false, true, JSValue.nan, 1⟩ : CompWatcher).value = true ∧
    (watcherUpdate ⟨false, false, true, false, false, true, JSValue.nan, 1⟩ JSValue.nan).2 =
      UpdateEffect.notifiedOwnDep := by
  decide

/--
Claim C1 (amended): for a computed watcher, `update` with zero
subscribers on its own `Dep` only marks it dirty — the value is untouched
and recomputation happens at the next `evaluate` — while with at least
one subscriber it recomputes synchronously (never enqueues), storing the
new value and notifying its own `Dep` exactly when the new value is
strictly unequal to the old, or is an object/array, or the watcher is
deep (`getAndInvoke`'s rule, not the property setter's: two NaN results
still notify and an identical object result still notifies).
-/
theorem watcherUpdate_computed_spec (w : CompWatcher) (v : JSValue) (hc : w.computed = true) :
    (w.subsCount = 0 →
      watcherUpdate w v = ({ w with dirty := true }, .markedDirtyOnly) ∧
      ∀ v2, watcherEvaluate (watcherUpdate w v).1 v2 = { w with value := v2, dirty := false }) ∧
    (w.subsCount ≠ 0 →
      ((watcherUpdate w v).2 = .notifiedOwnDep ∨ (watcherUpdate w v).2 = .recomputedSilent) ∧
      ((watcherUpdate w v).2 = .notifiedOwnDep ↔
        (jsStrictEq v w.value = false ∨ isObject v = true ∨ w.deep = true)) ∧
      ((watcherUpdate w v).2 = .notifiedOwnDep →
        (watcherUpdate w v).1.value = v ∧ (watcherUpdate w v).1.dirty = false) ∧
      ((watcherUpdate w v).2 = .recomputedSilent → (watcherUpdate w v).1 = w)) := by
  constructor
  · intro h0
    constructor
    · simp [watcherUpdate, hc, h0]
    · intro v2
      simp [watcherUpdate, hc, h0, watcherEvaluate]
  · intro hn
    by_cases hf : getAndInvokeFires w v = true
    · have h2 : watcherUpdate w v = ({ w with value := v, dirty := false }, .notifiedOwnDep) := by
        simp [watcherUpdate, hc, hn, hf]
      have hd : jsStrictEq v w.value = false ∨ isObject v = true ∨ w.deep = true := by
        simp only [getAndInvokeFires, Bool.or_eq_true, Bool.not_eq_true'] at hf
        tauto
      refine ⟨Or.inl (by simp [h2]), by simp [h2, hd], fun _ => by simp [h2], fun hco => ?_⟩
      rw [h2] at hco
      simp at hco
    · have hf' : getAndInvokeFires w v = false := by simpa using hf
      have h2 : watcherUpdate w v = (w, .recomputedSilent) := by
        simp [watcherUpdate, hc, hn, hf']
      have hd : ¬(jsStrictEq v w.value = false ∨ isObject v = true ∨ w.deep = true) := by
        simp only [getAndInvokeFires, Bool.or_eq_true, Bool.not_eq_true'] at hf'
        push_neg
        simp only [Bool.or_eq_false_iff, Bool.not_eq_true'] at hf'
        refine ⟨?_, ?_, ?_⟩
        · have := hf'.1.1
          simp only [Bool.not_eq_false'] at this
          simp [this]
        · simp [hf'.1.2]
        · simp [hf'.2]
      refine ⟨Or.inr (by simp [h2]), by simp [h2, hd], fun hco => ?_, fun _ => by simp [h2]⟩
      rw [h2] at hco
      simp at hco

/-- Witness for C1 (amended) at concrete inputs: a zero-subscriber computed
watcher is only marked dirty; a subscribed one recomputing from `1` to `2`
notifies its own `Dep`. -/
theorem watcherUpdate_computed_spec_witness :
    (watcherUpdate ⟨false, false, true, false, false, true, JSValue.num 1, 0⟩ (JSValue.num 2) =
      ({ (⟨false, false, true, false, false, true, JSValue.num 1, 0⟩ : CompWatcher) with
          dirty := true }, .markedDirtyOnly) ∧
      ∀ v2, watcherEvaluate
          (watcherUpdate ⟨false, false, true, false, false, true, JSValue.num 1, 0⟩
            (JSValue.num 2)).1 v2 =
        { (⟨false, false, true, false, false, true, JSValue.num 1, 0⟩ : CompWatcher) with
            value := v2, dirty := false }) ∧
    ((watcherUpdate ⟨false, false, true, false, false, true, JSValue.num 1, 1⟩
        (JSValue.num 2)).2 = UpdateEffect.notifiedOwnDep ↔
      (jsStrictEq (JSValue.num 2)
          (⟨false, false, true, false, false, true, JSValue.num 1, 1⟩ : CompWatcher).value = false ∨
        isObject (JSValue.num 2) = true ∨
        (⟨false, false, true, false, false, true, JSValue.num 1, 1⟩ : CompWatcher).deep = true)) :=
  ⟨(watcherUpdate_computed_spec ⟨false, false, true, false, false, true, JSValue.num 1, 0⟩
      (JSValue.num 2) rfl).1 rfl,
   ((watcherUpdate_computed_spec ⟨false, false, true, false, false, true, JSValue.num 1, 1⟩
      (JSValue.num 2) rfl).2 (by decide)).2.1⟩

/--
Counterexample to claim C10 as stated: with an active node of `none` but
a non-empty target stack (reachable by `pushTarget(A)` followed by
`pushTarget()` as in `getData`), `pushTarget(x)` pushes nothing (the
current target is falsy), so the matching `popTarget` pops the *older*
entry: the active node comes back as `some 1`, not the original `none`.
-/
theorem pushPop_counterexample :
    (popTarget (pushTarget (some 2) ⟨none, [1], 0, []⟩)).target ≠
      (⟨none, [1], 0, []⟩ : TrackState).target := by
  decide

/--
Claim C10 (amended): `pushTarget x` followed by the matching `popTarget`
restores the whole tracking state whenever a node `T` was active
(including when `x` is `none`); when no node was active, nothing was
pushed and `popTarget` instead installs the stack's previous top, which
is `none` exactly when the stack was empty.  While the active node is
`none` — as during `getData`'s `pushTarget()` window — `Dep.depend` is a
no-op, so no Subject records a read.
-/
theorem pushPop_balanced (s : TrackState) (x : Option Nat) (g : DepGraph) (d : Nat) :
    (∀ t, s.target = some t → popTarget (pushTarget x s) = s) ∧
    (s.target = none → (popTarget (pushTarget x s)).target = s.stack.head? ∧
      (s.stack = [] → (popTarget (pushTarget x s)).target = none)) ∧
    depend none g d = g := by
  refine ⟨?_, ?_, rfl⟩
  · intro t ht
    cases s with
    | mk tg st cl rp =>
      simp only at ht
      subst ht
      simp [pushTarget, popTarget]
  · intro ht
    constructor
    · simp [pushTarget, popTarget, ht]
    · intro hs
      simp [pushTarget, popTarget, ht, hs]

/-- Witness for C10 (amended) at a concrete input: with active node
`some 5` and stack `[3]`, a `pushTarget none` (dependency recording
suspended) followed by `popTarget` restores the state exactly. -/
theorem pushPop_balanced_witness :
    popTarget (pushTarget none ⟨some 5, [3], 0, []⟩) = (⟨some 5, [3], 0, []⟩ : TrackState) :=
  (pushPop_balanced ⟨some 5, [3], 0, []⟩ none
      ⟨0, [], [], [], [], fun _ => []⟩ 0).1 5 rfl

/--
Claim C8: `Watcher.get` makes the node the active computation before the
getter runs and, whether the getter succeeds or throws, pops the target
stack and runs `cleanupDeps` afterwards; a getter failure in a user
watcher is swallowed and reported as `getter for watcher ...` (the call
returns normally with `undefined`), a callback failure in a user watcher
is reported as `callback for watcher ...` without propagating, while a
getter or callback failure in a non-user watcher propagates unswallowed
and reports nothing.
-/
theorem watcherGet_spec (w : WatcherMeta) (o : Except String JSValue) (s : TrackState) :
    (pushTarget (some w.id) s).target = some w.id ∧
    (watcherGet w o s).1.cleanups = s.cleanups + 1 ∧
    (watcherGet w o s).1.target = (popTarget (pushTarget (some w.id) s)).target ∧
    (watcherGet w o s).1.stack = (popTarget (pushTarget (some w.id) s)).stack ∧
    (∀ v, o = .ok v →
      watcherGet w o s = (markCleanup (popTarget (pushTarget (some w.id) s)), .ok v)) ∧
    (∀ e, o = .error e → w.user = true →
      (watcherGet w o s).2 = .ok JSValue.undef ∧
      (watcherGet w o s).1.reported = s.reported ++ [getterErrorContext w]) ∧
    (∀ e, o = .error e → w.user = false →
      (watcherGet w o s).2 = .error e ∧
      (watcherGet w o s).1.reported = s.reported) ∧
    (∀ c, w.user = true →
      (invokeCallback w (.error c) s).2 = .ok () ∧
      (invokeCallback w (.error c) s).1.reported = s.reported ++ [callbackErrorContext w]) ∧
    (∀ c, w.user = false → invokeCallback w (.error c) s = (s, .error c)) := by
  have htg : (pushTarget (some w.id) s).target = some w.id := by
    cases h : s.target <;> simp [pushTarget, h]
  refine ⟨htg, ?_, ?_, ?_, ?_, ?_, ?_, ?_, ?_⟩
  · cases o with
    | ok v =>
      cases h : s.target <;>
        simp [watcherGet, markCleanup, popTarget, pushTarget, h]
    | error e =>
      by_cases hu : w.user = true <;>
        cases h : s.target <;>
          simp [watcherGet, markCleanup, hu, reportError, popTarget, pushTarget, h]
  · cases o with
    | ok v => rfl
    | error e =>
      by_cases hu : w.user = true <;>
        cases h : s.target <;>
          simp [watcherGet, markCleanup, hu, reportError, popTarget, pushTarget, h]
  · cases o with
    | ok v => rfl
    | error e =>
      by_cases hu : w.user = true <;>
        cases h : s.target <;>
          simp [watcherGet, markCleanup, hu, reportError, popTarget, pushTarget, h]
  · rintro v rfl
    rfl
  · rintro e rfl hu
    constructor
    · simp [watcherGet, hu]
    · cases h : s.target <;>
        simp [watcherGet, hu, markCleanup, popTarget, pushTarget, reportError, h]
  · rintro e rfl hu
    constructor
    · simp [watcherGet, hu]
    · cases h : s.target <;>
        simp [watcherGet, hu, markCleanup, popTarget, pushTarget, h]
  · intro c hu
    constructor
    · simp [invokeCallback, hu]
    · simp [invokeCallback, hu, reportError]
  · intro c hu
    simp [invokeCallback, hu]

/-- Witness for C8 at concrete inputs: a user watcher whose getter throws
returns `undefined` with the failure reported, and a non-user callback
failure propagates. -/
theorem watcherGet_spec_witness :
    ((watcherGet ⟨1, true, false, "a.b"⟩ (.error ("boom")) ⟨none, [], 0, []⟩).2 =
        .ok JSValue.undef ∧
      (watcherGet ⟨1, true, false, "a.b"⟩ (.error ("boom")) ⟨none, [], 0, []⟩).1.reported =
        [] ++ [getterErrorContext ⟨1, true, false, "a.b"⟩]) ∧
    invokeCallback ⟨2, false, false, "r"⟩ (.error ("cbfail")) ⟨none, [], 0, []⟩ =
      (⟨none, [], 0, []⟩, .error ("cbfail")) :=
  ⟨(watcherGet_spec ⟨1, true, false, "a.b"⟩ (.error ("boom")) ⟨none, [], 0, []⟩).2.2.2.2.2.1
      "boom" rfl rfl,
   (watcherGet_spec ⟨2, false, false, "r"⟩ (.ok JSValue.undef) ⟨none, [], 0, []⟩).2.2.2.2.2.2.2.2
      "cbfail" rfl⟩

/--
Claim C9: each of the seven intercepted array operations performs the
real underlying mutation (the contents equal what the uninstrumented
`Array.prototype` method produces and its original return value is
returned), wraps every newly inserted object/array element (for `push`,
`unshift` and `splice`), and calls the wrapper's structural
`dep.notify()` exactly once, invoking `update` on every subscriber that
previously read the array.
-/
theorem mutator_spec (a : WrappedArr) (op : ArrOp) :
    ((mutator a op).arr.elems = (origApply op a.elems).1 ∧
      (mutator a op).ret = (origApply op a.elems).2) ∧
    (∀ args, op = .push args →
      (mutator a op).arr.elems = a.elems ++ args ∧
      (mutator a op).arr.elems.length = a.elems.length + args.length ∧
      (mutator a op).ret = .val (.num ((a.elems.length + args.length : Nat) : Int))) ∧
    (∀ args, op = .unshift args → (mutator a op).arr.elems = args ++ a.elems) ∧
    (mutator a op).notifyCalls = 1 ∧
    (mutator a op).notified = a.subs ∧
    (∀ v i, v ∈ insertedOf op → objId v = some i → i ∈ (mutator a op).arr.wrappedIds) := by
  refine ⟨⟨rfl, rfl⟩, ?_, ?_, rfl, rfl, ?_⟩
  · rintro args rfl
    refine ⟨rfl, by simp [mutator, origApply], rfl⟩
  · rintro args rfl
    rfl
  · intro v i hv hi
    simp only [mutator, List.mem_append, List.mem_filterMap]
    exact Or.inr ⟨v, hv, hi⟩

/-- Witness for C9 at the spec's concrete example: pushing `4` onto a
wrapped `[1, 2, 3]` yields `[1, 2, 3, 4]` of length 4 and notifies the
prior readers (subscriber `7`); pushing a fresh object wraps it. -/
theorem mutator_spec_witness :
    ((mutator ⟨[JSValue.num 1, JSValue.num 2, JSValue.num 3], [], [7]⟩
        (.push [JSValue.num 4])).arr.elems =
        [JSValue.num 1, JSValue.num 2, JSValue.num 3] ++ [JSValue.num 4] ∧
      (mutator ⟨[JSValue.num 1, JSValue.num 2, JSValue.num 3], [], [7]⟩
        (.push [JSValue.num 4])).arr.elems.length =
        [JSValue.num 1, JSValue.num 2, JSValue.num 3].length + [JSValue.num 4].length ∧
      (mutator ⟨[JSValue.num 1, JSValue.num 2, JSValue.num 3], [], [7]⟩
        (.push [JSValue.num 4])).ret =
        .val (.num (([JSValue.num 1, JSValue.num 2, JSValue.num 3].length +
          [JSValue.num 4].length : Nat) : Int))) ∧
    (mutator ⟨[JSValue.num 1, JSValue.num 2, JSValue.num 3], [], [7]⟩
      (.push [JSValue.num 4])).notified = [7] ∧
    9 ∈ (mutator ⟨[], [], []⟩ (.push [JSValue.obj 9])).arr.wrappedIds :=
  ⟨(mutator_spec ⟨[JSValue.num 1, JSValue.num 2, JSValue.num 3], [], [7]⟩
      (.push [JSValue.num 4])).2.1 [JSValue.num 4] rfl,
   (mutator_spec ⟨[JSValue.num 1, JSValue.num 2, JSValue.num 3], [], [7]⟩
      (.push [JSValue.num 4])).2.2.2.2.1,
   (mutator_spec ⟨[], [], []⟩ (.push [JSValue.obj 9])).2.2.2.2.2 (JSValue.obj 9) 9
      (by simp [insertedOf]) rfl⟩

/-- How the removal pass of `cleanupDeps` changes the number of times
the watcher occurs in each dep's subscriber list: one occurrence is
erased per traversed dep that is not a current-cycle dependency. -/
theorem removeOldSubs_count (wid : Nat) (nids : List Nat) :
    ∀ (l : List Nat) (subs : Nat → List Nat) (d : Nat),
      ((removeOldSubs wid nids l subs) d).count wid =
        (subs d).count wid - (if d ∈ nids then 0 else l.count d) := by
  intro l
  induction l with
  | nil => intro subs d; simp [removeOldSubs]
  | cons a rest ih =>
    intro subs d
    simp only [removeOldSubs]
    by_cases ha : a ∈ nids
    · rw [if_pos ha, ih]
      by_cases hd : d ∈ nids
      · simp [hd]
      · have hda : d ≠ a := fun h => hd (h ▸ ha)
        simp [hd, List.count_cons_of_ne hda]
    · rw [if_neg ha, ih]
      by_cases hda : d = a
      · subst hda
        have hd : d ∉ nids := ha
        simp only [hd, if_false, List.count_cons_self, eq_self_iff_true, ite_true,
          List.count_erase_self]
        omega
      · have hne : (if d = a then (subs d).erase wid else subs d) = subs d := by
          simp [hda]
        simp only [hne]
        by_cases hd : d ∈ nids
        · simp [hd]
        · simp [hd, List.count_cons_of_ne hda]

/--
Claim C6: dependency registration is idempotent within a cycle — `addDep`
adds the Subject only if it is not in the current-cycle set, and
physically subscribes (`dep.addSub`) only if it was also absent from the
previous-cycle set; both `addDep` and `cleanupDeps` preserve the
at-most-once subscriber invariant, and after `cleanupDeps` the watcher
occurs exactly once in the lists of the Subjects read this cycle and has
been removed from every Subject read last cycle but not this cycle.
-/
theorem addDep_cleanupDeps_spec (g : DepGraph) (id : Nat) :
    (id ∈ g.newDepIds → addDep g id = g) ∧
    (id ∉ g.newDepIds → id ∈ g.depIds →
      (addDep g id).subs = g.subs ∧ id ∈ (addDep g id).newDepIds) ∧
    (id ∉ g.newDepIds → id ∉ g.depIds →
      (addDep g id).subs id = g.subs id ++ [g.wid] ∧ id ∈ (addDep g id).newDepIds) ∧
    (DepInv g → DepInv (addDep g id)) ∧
    (DepInv g →
      DepInv (cleanupDeps g) ∧
      (∀ d, ((cleanupDeps g).subs d).count g.wid = if d ∈ g.newDepIds then 1 else 0) ∧
      (∀ d, d ∈ g.depIds → d ∉ g.newDepIds → g.wid ∉ (cleanupDeps g).subs d)) := by
  have hcount : ∀ hg : DepInv g, ∀ d,
      ((cleanupDeps g).subs d).count g.wid = if d ∈ g.newDepIds then 1 else 0 := by
    intro hg d
    have h := removeOldSubs_count g.wid g.newDepIds g.deps.reverse g.subs d
    simp only [cleanupDeps] at *
    rw [h, List.count_reverse, hg.1 d]
    by_cases hnd : d ∈ g.newDepIds
    · simp [hnd]
    · by_cases hdd : d ∈ g.depIds
      · have hmem : d ∈ g.deps := (hg.2.1 d).mpr hdd
        have hpos : 0 < g.deps.count d := List.count_pos_iff.mpr hmem
        simp only [hnd, hdd, if_neg, if_pos, true_or, if_false]
        omega
      · simp [hnd, hdd]
  refine ⟨?_, ?_, ?_, ?_, ?_⟩
  · intro h
    simp [addDep, h]
  · intro h1 h2
    constructor
    · simp [addDep, h1, h2]
    · simp [addDep, h1, h2]
  · intro h1 h2
    constructor
    · simp [addDep, h1, h2]
    · simp [addDep, h1, h2]
  · intro hg
    by_cases h1 : id ∈ g.newDepIds
    · simpa [addDep, h1] using hg
    · by_cases h2 : id ∈ g.depIds
      · refine ⟨?_, ?_, ?_⟩
        · intro d
          simp only [addDep, h1, h2, if_neg, if_pos, if_false, if_true]
          rw [hg.1 d]
          by_cases hd : d = id
          · subst hd
            simp [h2, List.mem_cons]
          · simp [List.mem_cons, hd]
        · intro d
          simpa [addDep, h1, h2] using hg.2.1 d
        · intro d
          have := hg.2.2 d
          simp only [addDep, h1, h2, if_neg, if_pos, if_false, if_true, List.mem_append,
            List.mem_cons, List.not_mem_nil, or_false]
          tauto
      · refine ⟨?_, ?_, ?_⟩
        · intro d
          simp only [addDep, h1, h2, if_neg, if_false]
          by_cases hd : d = id
          · subst hd
            have h0 : (g.subs d).count g.wid = 0 := by
              rw [hg.1 d]
              simp [h1, h2]
            simp [h0, List.count_append, List.mem_cons]
          · have := hg.1 d
            simp only [if_neg hd]
            rw [this]
            simp [List.mem_cons, hd]
        · intro d
          simpa [addDep, h1, h2] using hg.2.1 d
        · intro d
          have := hg.2.2 d
          simp only [addDep, h1, h2, if_neg, if_false, List.mem_append, List.mem_cons,
            List.not_mem_nil, or_false]
          tauto
  · intro hg
    refine ⟨⟨?_, ?_, ?_⟩, hcount hg, ?_⟩
    · intro d
      have := hcount hg d
      simpa [cleanupDeps] using this
    · intro d
      simpa [cleanupDeps] using hg.2.2 d
    · intro d
      simp [cleanupDeps]
    · intro d hdd hnd
      have := hcount hg d
      rw [if_neg hnd] at this
      exact List.count_eq_zero.mp this

/-- Witness for C6 at a concrete input: starting from an empty bookkeeping
state (which satisfies the invariant), registering dep 5 puts the watcher
into dep 5's subscriber list exactly once after reconciliation. -/
theorem addDep_cleanupDeps_spec_witness :
    ((cleanupDeps (addDep ⟨0, [], [], [], [], fun _ => []⟩ 5)).subs 5).count
        (addDep ⟨0, [], [], [], [], fun _ => []⟩ 5).wid =
      if 5 ∈ (addDep ⟨0, [], [], [], [], fun _ => []⟩ 5).newDepIds then 1 else 0 :=
  ((addDep_cleanupDeps_spec (addDep ⟨0, [], [], [], [], fun _ => []⟩ 5) 5).2.2.2.2
    ((addDep_cleanupDeps_spec ⟨0, [], [], [], [], fun _ => []⟩ 5).2.2.2.1
      (by refine ⟨?_, ?_, ?_⟩ <;> intro d <;> simp))).2.1 5

/-- The array branch of `set` produces an array just long enough to cover
the index. -/
theorem growSplice_length (l : List JSValue) (k : Nat) (v : JSValue) :
    (growSplice l k v).length = max l.length (k + 1) := by
  unfold growSplice
  by_cases h : l.length < k <;>
    simp [h, List.length_append, List.length_take, List.length_drop,
      List.length_replicate] <;> omega

/-- The array branch of `set` stores the value at the requested index. -/
theorem growSplice_getD (l : List JSValue) (k : Nat) (v : JSValue) :
    (growSplice l k v).getD k JSValue.undef = v := by
  unfold growSplice
  set l2 := if l.length < k then l ++ List.replicate (k - l.length) JSValue.undef else l with hl2
  have hlen : k ≤ l2.length := by
    rw [hl2]
    by_cases h : l.length < k <;> simp [h] <;> omega
  have htake : (l2.take k).length = k := by
    simp [List.length_take]
    omega
  have hle : (l2.take k).length ≤ k := le_of_eq htake
  rw [List.getD_eq_getElem?_getD, List.getElem?_append_right hle]
  simp [htake]

/--
Counterexample to claim C7 as stated: a wrapped map-like container whose
wrapper is claimed as root `$data` (`vmCount = 1`), given a brand-new key.
The claim's case split requires a new reactive property to be installed
and the structural Subject notified, but `set` warns and returns without
touching the container: no field is added and no notification fires.
-/
theorem set_rootData_counterexample :
    set ⟨false, [], [], false, true, 1⟩ (SetKey.str ("k")) (JSValue.num 1) =
      (⟨false, [], [], false, true, 1⟩, SetOutcome.rootGuard, 0) := by
  decide

/--
Claim C7 (amended): `set(container, key, value)` behaves as claimed with
two refinements forced by the source: (a) the structural notification of
the array branch fires only when the array is wrapped (an unwrapped array
still grows and assigns through plain `splice`, silently); (b) before
installing a new property, a guard returns without doing anything when
the container is a Vue instance or a wrapped root-`$data` container
(`vmCount ≠ 0`); the existing-key branch applies to any own key (its
setter fires only if the key is reactive).  Otherwise: valid array index
— grow to cover the index and assign via `splice` (one structural
notification when wrapped); existing own key — assign in place with no
structural notification; unwrapped container — plain assignment, no
notification; otherwise — install a brand-new reactive property and
notify the wrapper's structural Subject exactly once.
-/
theorem set_spec (t : SetTarget) (v : JSValue) :
    (∀ n, t.isArr = true →
      (set t (.idx n) v).1.elems.length = max t.elems.length (n + 1) ∧
      (set t (.idx n) v).1.elems.getD n JSValue.undef = v ∧
      (set t (.idx n) v).1.fields = t.fields ∧
      (set t (.idx n) v).2.1 = .viaSplice ∧
      (set t (.idx n) v).2.2 = if t.hasOb then 1 else 0) ∧
    (∀ key, t.fields.any (fun f => f.key = key) = true →
      set t (.str key) v = ({ t with fields := setField t.fields key v }, .viaAssign, 0)) ∧
    (∀ key, t.fields.any (fun f => f.key = key) = false →
      (t.isVue = true ∨ (t.hasOb = true ∧ t.vmCount ≠ 0)) →
      set t (.str key) v = (t, .rootGuard, 0)) ∧
    (∀ key, t.fields.any (fun f => f.key = key) = false →
      t.isVue = false → t.hasOb = false →
      set t (.str key) v = ({ t with fields := t.fields ++ [⟨key, v, false⟩] }, .plainAssign, 0)) ∧
    (∀ key, t.fields.any (fun f => f.key = key) = false →
      t.isVue = false → t.hasOb = true → t.vmCount = 0 →
      set t (.str key) v =
        ({ t with fields := t.fields ++ [⟨key, v, true⟩] }, .installed, 1)) := by
  have hstr : ∀ key, set t (.str key) v = setObjectPath t key v := by
    intro key
    cases h : t.isArr <;> simp [set, h, SetKey.asString]
  refine ⟨?_, ?_, ?_, ?_, ?_⟩
  · intro n ha
    cases t with
    | mk isArr elems fields isVue hasOb vmCount =>
      simp only at ha
      subst ha
      exact ⟨growSplice_length elems n v, growSplice_getD elems n v, rfl, rfl, rfl⟩
  · intro key hmem
    rw [hstr, setObjectPath, if_pos hmem]
  · intro key hmem hguard
    rw [hstr, setObjectPath, if_neg (by simp [hmem]), if_pos ?_]
    rcases hguard with h | ⟨h1, h2⟩
    · exact Or.inl (by simp [h])
    · exact Or.inr ⟨by simp [h1], h2⟩
  · intro key hmem hvue hob
    rw [hstr, setObjectPath, if_neg (by simp [hmem]), if_neg (by simp [hvue, hob]),
      if_pos (by simp [hob])]
  · intro key hmem hvue hob hvm
    rw [hstr, setObjectPath, if_neg (by simp [hmem]), if_neg (by simp [hvue, hvm]),
      if_neg (by simp [hob])]

/-- Witness for C7 (amended) at concrete inputs: `set` on a wrapped
`[10]` at index 2 grows the array to `[10, undefined, 30]` with one
structural notification, and `set` of a new key on a wrapped non-root map
installs a reactive field with one structural notification. -/
theorem set_spec_witness :
    ((set ⟨true, [JSValue.num 10], [], false, true, 0⟩ (.idx 2) (JSValue.num 30)).1.elems.length =
        max [JSValue.num 10].length (2 + 1) ∧
      (set ⟨true, [JSValue.num 10], [], false, true, 0⟩ (.idx 2)
          (JSValue.num 30)).1.elems.getD 2 JSValue.undef = JSValue.num 30 ∧
      (set ⟨true, [JSValue.num 10], [], false, true, 0⟩ (.idx 2) (JSValue.num 30)).1.fields = [] ∧
      (set ⟨true, [JSValue.num 10], [], false, true, 0⟩ (.idx 2) (JSValue.num 30)).2.1 =
        .viaSplice ∧
      (set ⟨true, [JSValue.num 10], [], false, true, 0⟩ (.idx 2) (JSValue.num 30)).2.2 =
        if (true : Bool) then 1 else 0) ∧
    set ⟨false, [], [], false, true, 0⟩ (.str ("k")) (JSValue.num 1) =
      ({ (⟨false, [], [], false, true, 0⟩ : SetTarget) with
          fields := [] ++ [⟨"k", JSValue.num 1, true⟩] }, .installed, 1) :=
  ⟨(set_spec ⟨true, [JSValue.num 10], [], false, true, 0⟩ (JSValue.num 30)).1 2 rfl,
   (set_spec ⟨false, [], [], false, true, 0⟩ (JSValue.num 1)).2.2.2.2 ("k") rfl rfl rfl rfl⟩

/-- `getD` agrees with `getElem` inside the list. -/
theorem getD_of_lt (q : List Nat) (j : Nat) (h : j < q.length) : q.getD j 0 = q[j] := by
  rw [List.getD_eq_getElem?_getD, List.getElem?_eq_getElem h]
  rfl

/-- The splice-position loop never moves up. -/
theorem spliceLoop_le (q : List Nat) (index id : Nat) : ∀ i, spliceLoop q index id i ≤ i := by
  intro i
  induction i with
  | zero => simp [spliceLoop]
  | succ n ih =>
    simp only [spliceLoop]
    split
    · exact le_trans ih (Nat.le_succ n)
    · exact le_refl _

/-- The splice-position loop never moves below the flush cursor. -/
theorem spliceLoop_ge (q : List Nat) (index id : Nat) :
    ∀ i, index ≤ i → index ≤ spliceLoop q index id i := by
  intro i
  induction i with
  | zero => intro h; simpa [spliceLoop] using h
  | succ n ih =>
    intro h
    simp only [spliceLoop]
    split
    · next hc => exact ih (by omega)
    · exact h

/-- Every queue entry strictly between the loop's stopping point and its
starting point has an id greater than the inserted one. -/
theorem spliceLoop_above (q : List Nat) (index id : Nat) :
    ∀ i j, spliceLoop q index id i < j → j ≤ i → id < q.getD j 0 := by
  intro i
  induction i with
  | zero =>
    intro j h1 h2
    simp [spliceLoop] at h1
    omega
  | succ n ih =>
    intro j h1 h2
    by_cases hc : index < n + 1 ∧ id < q.getD (n + 1) 0
    · rw [spliceLoop, if_pos hc] at h1
      rcases Nat.eq_or_lt_of_le h2 with rfl | hj
      · exact hc.2
      · exact ih j h1 (by omega)
    · rw [spliceLoop, if_neg hc] at h1
      omega

/-- Where the splice-position loop stops: at the cursor, or on an entry
whose id is at most the inserted one. -/
theorem spliceLoop_stop (q : List Nat) (index id : Nat) :
    ∀ i, index ≤ i →
      spliceLoop q index id i = index ∨ q.getD (spliceLoop q index id i) 0 ≤ id := by
  intro i
  induction i with
  | zero =>
    intro h
    left
    simp [spliceLoop]
    omega
  | succ n ih =>
    intro h
    simp only [spliceLoop]
    split
    · next hc => exact ih (by omega)
    · next hc => omega

/-- Inserting a value between a prefix of smaller-or-equal elements and a
suffix of larger-or-equal elements of a sorted list keeps it sorted. -/
theorem sorted_insert_mid (S : List Nat) (p id : Nat) (hS : List.Sorted (· ≤ ·) S)
    (hA : ∀ x ∈ S.take p, x ≤ id) (hB : ∀ x ∈ S.drop p, id ≤ x) :
    List.Sorted (· ≤ ·) (S.take p ++ id :: S.drop p) := by
  rw [List.Sorted, List.pairwise_append]
  refine ⟨List.Pairwise.sublist (List.take_sublist p S) hS, ?_, ?_⟩
  · rw [List.pairwise_cons]
    exact ⟨hB, List.Pairwise.sublist (List.drop_sublist p S) hS⟩
  · intro x hx y hy
    rcases List.mem_cons.mp hy with rfl | hy2
    · exact hA x hx
    · exact le_trans (hA x hx) (hB y hy2)

/--
Claim C3: `queueWatcher` dedups on the presence set — an id already
admitted in the current cycle leaves the scheduler untouched; while not
flushing a new id is appended; while flushing the new id is spliced
strictly behind the cursor (so it still runs within the current flush),
the already-processed prefix up to and including the cursor is unchanged,
and if the not-yet-processed remainder was in ascending id order it still
is after the insertion.
-/
theorem queueWatcher_spec (s : Sched) (id : Nat) :
    (id ∈ s.has → queueWatcher s id = s) ∧
    (id ∉ s.has → s.flushing = false →
      (queueWatcher s id).queue = s.queue ++ [id] ∧ id ∈ (queueWatcher s id).has) ∧
    (id ∉ s.has → s.flushing = true → s.index < s.queue.length →
      s.index < splicePos s.queue s.index id ∧
      splicePos s.queue s.index id ≤ s.queue.length ∧
      (queueWatcher s id).queue = spliceIn s.queue (splicePos s.queue s.index id) id ∧
      (queueWatcher s id).queue.take (s.index + 1) = s.queue.take (s.index + 1) ∧
      id ∈ (queueWatcher s id).has ∧
      (List.Sorted (· ≤ ·) (s.queue.drop (s.index + 1)) →
        List.Sorted (· ≤ ·) ((queueWatcher s id).queue.drop (s.index + 1)))) := by
  refine ⟨?_, ?_, ?_⟩
  · intro h
    simp [queueWatcher, h]
  · intro hmem hfl
    cases hw : s.waiting <;>
      exact ⟨by simp [queueWatcher, hmem, hfl, hw], by simp [queueWatcher, hmem, hfl, hw]⟩
  · intro hmem hfl hidx
    set q := s.queue with hq
    set n := s.index with hn
    set r := spliceLoop q n id (q.length - 1) with hr
    have hlen1 : 1 ≤ q.length := by omega
    have hni : n ≤ q.length - 1 := by omega
    have hr_ge : n ≤ r := spliceLoop_ge q n id (q.length - 1) hni
    have hr_le : r ≤ q.length - 1 := spliceLoop_le q n id (q.length - 1)
    have hpos : splicePos q n id = r + 1 := rfl
    have hqueue : (queueWatcher s id).queue = spliceIn q (splicePos q n id) id := by
      cases hw : s.waiting <;> simp [queueWatcher, hmem, hfl, hw, hq, hn]
    have hhas : id ∈ (queueWatcher s id).has := by
      cases hw : s.waiting <;> simp [queueWatcher, hmem, hfl, hw]
    have hpos_le : splicePos q n id ≤ q.length := by
      rw [hpos]; omega
    have htakelen : (q.take (r + 1)).length = r + 1 := by
      simp [List.length_take]; omega
    refine ⟨by rw [hpos]; omega, hpos_le, hqueue, ?_, hhas, ?_⟩
    · rw [hqueue, hpos, spliceIn,
        List.take_append_of_le_length (by rw [htakelen]; omega),
        List.take_take]
      congr 1
      omega
    · intro hsorted
      rw [hqueue, hpos, spliceIn]
      have hdec : (q.take (r + 1) ++ id :: q.drop (r + 1)).drop (n + 1) =
          (q.drop (n + 1)).take (r + 1 - (n + 1)) ++ id :: (q.drop (n + 1)).drop (r + 1 - (n + 1)) := by
        rw [List.drop_append_eq_append_drop, List.drop_take]
        have h0 : n + 1 - (q.take (r + 1)).length = 0 := by rw [htakelen]; omega
        rw [h0, List.drop_zero, List.drop_drop]
        have h1 : n + 1 + (r + 1 - (n + 1)) = r + 1 := by omega
        rw [h1]
      rw [hdec]
      apply sorted_insert_mid _ _ _ hsorted
      · -- prefix elements are at most id
        intro x hx
        rcases List.mem_iff_getElem.mp hx with ⟨i, hilt, hxe⟩
        have hplen : (List.take (r + 1 - (n + 1)) (q.drop (n + 1))).length =
            min (r + 1 - (n + 1)) (q.length - (n + 1)) := by
          simp [List.length_take]
        by_cases hp0 : r + 1 - (n + 1) = 0
        · rw [hplen, hp0] at hilt
          omega
        · -- here n + 1 ≤ r, and the loop stopped on an entry of id at most id
          have hrn : n + 1 ≤ r := by omega
          have hstop := spliceLoop_stop q n id (q.length - 1) hni
          rw [← hr] at hstop
          have hrle : q.getD r 0 ≤ id := by
            rcases hstop with h2 | h2
            · omega
            · exact h2
          have hrlt : r < q.length := by omega
          rw [getD_of_lt q r hrlt] at hrle
          have hiS : i < (q.drop (n + 1)).length := by
            rw [hplen] at hilt
            simp only [List.length_drop]
            omega
          have hrS : r - (n + 1) < (q.drop (n + 1)).length := by
            simp only [List.length_drop]
            omega
          have hxi : x = (q.drop (n + 1)).get ⟨i, hiS⟩ := by
            rw [← hxe]
            simp [List.get_eq_getElem, List.getElem_take]
          have hile : i ≤ r - (n + 1) := by
            rw [hplen] at hilt
            omega
          have hmono : (q.drop (n + 1)).get ⟨i, hiS⟩ ≤
              (q.drop (n + 1)).get ⟨r - (n + 1), hrS⟩ :=
            hsorted.rel_get_of_le (by simpa using hile)
          have hget : (q.drop (n + 1)).get ⟨r - (n + 1), hrS⟩ = q.get ⟨r, hrlt⟩ := by
            simp only [List.get_eq_getElem, List.getElem_drop]
            congr 1
            omega
          have hrq : q.get ⟨r, hrlt⟩ ≤ id := by
            rw [List.get_eq_getElem]
            exact hrle
          rw [hxi]
          exact le_trans hmono (by rw [hget]; exact hrq)
      · -- suffix elements are at least id
        intro x hx
        rw [List.drop_drop] at hx
        rcases List.mem_iff_getElem.mp hx with ⟨i, hilt, hxe⟩
        simp only [List.length_drop] at hilt
        have hj : n + 1 + (r + 1 - (n + 1)) + i < q.length := by omega
        have hxq : x = q.get ⟨n + 1 + (r + 1 - (n + 1)) + i, hj⟩ := by
          rw [← hxe]
          simp [List.get_eq_getElem, List.getElem_drop]
        have habove := spliceLoop_above q n id (q.length - 1)
          (n + 1 + (r + 1 - (n + 1)) + i) (by omega) (by omega)
        rw [getD_of_lt q _ hj] at habove
        have hsame : q.get ⟨n + 1 + (r + 1 - (n + 1)) + i, hj⟩ =
            q[n + 1 + (r + 1 - (n + 1)) + i] := rfl
        rw [hxq, hsame]
        omega

/-- Witness for C3 at concrete inputs: enqueueing id 2 with queue
`[1, 3, 5]` mid-flush (cursor 0) splices it between 1 and 3, keeps the
processed prefix, and keeps the remainder sorted; re-enqueueing a present
id is a no-op. -/
theorem queueWatcher_spec_witness :
    queueWatcher ⟨[1, 3, 5], [3, 5], fun _ => 0, true, true, 0⟩ 3 =
      ⟨[1, 3, 5], [3, 5], fun _ => 0, true, true, 0⟩ ∧
    ((queueWatcher ⟨[1, 3, 5], [5], fun _ => 0, true, true, 0⟩ 2).queue =
        spliceIn [1, 3, 5] (splicePos [1, 3, 5] 0 2) 2 ∧
      (queueWatcher ⟨[1, 3, 5], [5], fun _ => 0, true, true, 0⟩ 2).queue.take (0 + 1) =
        [1, 3, 5].take (0 + 1) ∧
      List.Sorted (· ≤ ·)
        ((queueWatcher ⟨[1, 3, 5], [5], fun _ => 0, true, true, 0⟩ 2).queue.drop (0 + 1))) :=
  ⟨(queueWatcher_spec ⟨[1, 3, 5], [3, 5], fun _ => 0, true, true, 0⟩ 3).1 (by decide),
   by
    have h := (queueWatcher_spec ⟨[1, 3, 5], [5], fun _ => 0, true, true, 0⟩ 2).2.2
      (by decide) rfl (by decide)
    exact ⟨h.2.2.1, h.2.2.2.1, h.2.2.2.2.2 (by decide)⟩⟩

/-- A flush whose watcher runs enqueue nothing just walks the queue from
the cursor to the end, logging each entry in queue order. -/
theorem flushLoop_trivial (wuser : Nat → Bool) (wexpr : Nat → String) :
    ∀ (fuel : Nat) (s : Sched) (log : List Nat),
      s.has.Nodup → s.queue.length - s.index < fuel →
      (flushLoop (fun _ => []) wuser wexpr fuel s log).log = log ++ s.queue.drop s.index ∧
      (flushLoop (fun _ => []) wuser wexpr fuel s log).completed = true ∧
      (flushLoop (fun _ => []) wuser wexpr fuel s log).diag = none := by
  intro fuel
  induction fuel with
  | zero =>
    intro s log hnd hfuel
    omega
  | succ k ih =>
    intro s log hnd hfuel
    by_cases h : s.index < s.queue.length
    · have hstep : flushLoop (fun _ => []) wuser wexpr (k + 1) s log =
          flushLoop (fun _ => []) wuser wexpr k
            { s with has := s.has.erase (s.queue.get ⟨s.index, h⟩), index := s.index + 1 }
            (log ++ [s.queue.get ⟨s.index, h⟩]) := by
        rw [flushLoop, dif_pos h]
        simp only [List.foldl_nil]
        rw [if_neg (List.Nodup.not_mem_erase hnd)]
      rw [hstep]
      have hres := ih { s with has := s.has.erase (s.queue.get ⟨s.index, h⟩), index := s.index + 1 }
        (log ++ [s.queue.get ⟨s.index, h⟩]) (List.Nodup.erase _ hnd) (by simp; omega)
      refine ⟨?_, hres.2.1, hres.2.2⟩
      rw [hres.1]
      simp only [List.append_assoc, List.singleton_append]
      congr 1
      exact List.getElem_cons_drop s.queue s.index h
    · rw [flushLoop, dif_neg h]
      refine ⟨?_, rfl, rfl⟩
      rw [List.drop_eq_nil_of_le (by omega), List.append_nil]

/-- A `≤`-sorted duplicate-free list is `<`-sorted. -/
theorem sorted_le_nodup_lt {l : List Nat} (hs : List.Sorted (· ≤ ·) l) (hn : l.Nodup) :
    List.Sorted (· < ·) l :=
  (hs.and hn).imp fun h => lt_of_le_of_ne h.1 h.2

/-- In a strictly sorted list, the index of a smaller member precedes the
index of a larger member. -/
theorem sorted_indexOf_lt {l : List Nat} (hs : List.Sorted (· < ·) l) {a b : Nat}
    (ha : a ∈ l) (hb : b ∈ l) (hab : a < b) : l.indexOf a < l.indexOf b := by
  have hal : l.indexOf a < l.length := List.indexOf_lt_length.mpr ha
  have hbl : l.indexOf b < l.length := List.indexOf_lt_length.mpr hb
  rcases lt_trichotomy (l.indexOf a) (l.indexOf b) with h | h | h
  · exact h
  · exfalso
    have h1 : l[l.indexOf a]? = some a := List.getElem?_indexOf ha
    have h2 : l[l.indexOf b]? = some b := List.getElem?_indexOf hb
    rw [h, h2] at h1
    have : a = b := (Option.some_injective _ h1).symm
    omega
  · exfalso
    have hba := hs.rel_get_of_lt (a := ⟨l.indexOf b, hbl⟩) (b := ⟨l.indexOf a, hal⟩) h
    simp only [List.get_eq_getElem, List.getElem_indexOf] at hba
    omega

/--
Claim C4: within one flush with no re-entrant enqueues, the queue is
sorted ascending by id before iteration and the pending watchers run in
exactly that order — strictly ascending when ids are distinct — so of two
nodes both invalidated by one write, the one created first (smaller id)
completes its run first.  (Nodes spliced in mid-flush are ordered only
relative to the remaining unrun portion; that part of the claim is the
mid-flush insertion property of `queueWatcher`.)
-/
theorem flush_ascending (q has : List Nat) (wuser : Nat → Bool) (wexpr : Nat → String)
    (hq : q.Nodup) (hh : has.Nodup) :
    (flushSchedulerQueue (fun _ => []) wuser wexpr (q.length + 1)
        ⟨q, has, fun _ => 0, true, false, 0⟩).completed = true ∧
    (flushSchedulerQueue (fun _ => []) wuser wexpr (q.length + 1)
        ⟨q, has, fun _ => 0, true, false, 0⟩).log = q.mergeSort (fun a b => a ≤ b) ∧
    List.Sorted (· < ·)
      (flushSchedulerQueue (fun _ => []) wuser wexpr (q.length + 1)
        ⟨q, has, fun _ => 0, true, false, 0⟩).log ∧
    (∀ a b, a ∈ q → b ∈ q → a < b →
      (flushSchedulerQueue (fun _ => []) wuser wexpr (q.length + 1)
          ⟨q, has, fun _ => 0, true, false, 0⟩).log.indexOf a <
        (flushSchedulerQueue (fun _ => []) wuser wexpr (q.length + 1)
          ⟨q, has, fun _ => 0, true, false, 0⟩).log.indexOf b) := by
  have hlog := flushLoop_trivial wuser wexpr (q.length + 1)
    ⟨q.mergeSort (fun a b => a ≤ b), has, fun _ => 0, true, true, 0⟩ [] hh
    (by simp [List.length_mergeSort])
  have hmain : flushSchedulerQueue (fun _ => []) wuser wexpr (q.length + 1)
      ⟨q, has, fun _ => 0, true, false, 0⟩ =
      { flushLoop (fun _ => []) wuser wexpr (q.length + 1)
          ⟨q.mergeSort (fun a b => a ≤ b), has, fun _ => 0, true, true, 0⟩ [] with
        sched := resetSchedulerState (flushLoop (fun _ => []) wuser wexpr (q.length + 1)
          ⟨q.mergeSort (fun a b => a ≤ b), has, fun _ => 0, true, true, 0⟩ []).sched } := by
    rfl
  have hlogeq : (flushSchedulerQueue (fun _ => []) wuser wexpr (q.length + 1)
      ⟨q, has, fun _ => 0, true, false, 0⟩).log = q.mergeSort (fun a b => a ≤ b) := by
    rw [hmain]
    simpa using hlog.1
  have hcomp : (flushSchedulerQueue (fun _ => []) wuser wexpr (q.length + 1)
      ⟨q, has, fun _ => 0, true, false, 0⟩).completed = true := by
    rw [hmain]
    simpa using hlog.2.1
  have hsorted_le : List.Sorted (· ≤ ·) (q.mergeSort (fun a b => a ≤ b)) := by
    have := @List.sorted_mergeSort Nat (fun a b : Nat => a ≤ b)
      (fun a b c hab hbc => by simp at *; omega)
      (fun a b => by simp; omega) q
    exact this.imp fun h => by simpa using h
  have hnodup : (q.mergeSort (fun a b : Nat => a ≤ b)).Nodup :=
    ((q.mergeSort_perm _).nodup_iff).mpr hq
  have hsorted_lt := sorted_le_nodup_lt hsorted_le hnodup
  refine ⟨hcomp, hlogeq, by rw [hlogeq]; exact hsorted_lt, ?_⟩
  intro a b hain hbin hab
  rw [hlogeq]
  exact sorted_indexOf_lt hsorted_lt
    (by rw [List.mem_mergeSort]; exact hain)
    (by rw [List.mem_mergeSort]; exact hbin) hab

/-- Witness for C4 at a concrete input: flushing the queue `[2, 1, 3]`
runs the watchers as `[1, 2, 3]`, with node 1 before node 2. -/
theorem flush_ascending_witness :
    (flushSchedulerQueue (fun _ => []) (fun _ => false) (fun _ => "") ([2, 1, 3].length + 1)
        ⟨[2, 1, 3], [1, 2, 3], fun _ => 0, true, false, 0⟩).log =
      [2, 1, 3].mergeSort (fun a b => a ≤ b) ∧
    (flushSchedulerQueue (fun _ => []) (fun _ => false) (fun _ => "") ([2, 1, 3].length + 1)
        ⟨[2, 1, 3], [1, 2, 3], fun _ => 0, true, false, 0⟩).log.indexOf 1 <
      (flushSchedulerQueue (fun _ => []) (fun _ => false) (fun _ => "") ([2, 1, 3].length + 1)
        ⟨[2, 1, 3], [1, 2, 3], fun _ => 0, true, false, 0⟩).log.indexOf 2 :=
  ⟨(flush_ascending [2, 1, 3] [1, 2, 3] (fun _ => false) (fun _ => "")
      (by decide) (by decide)).2.1,
   (flush_ascending [2, 1, 3] [1, 2, 3] (fun _ => false) (fun _ => "")
      (by decide) (by decide)).2.2.2 1 2 (by decide) (by decide) (by decide)⟩

set_option maxRecDepth 10000

/--
Claim C5: a user watch whose run unconditionally re-enqueues itself (the
callback re-writes its own dependency) is stopped by the scheduler: after
it has been re-enqueued following its own run more than
`MAX_UPDATE_COUNT` (100) times within one flush, the dev-build warning
fires — naming the watch expression for a user node, or the component
render function otherwise — and the remainder of the queue is abandoned:
watcher 1 runs exactly 101 times, the flush then stops, and the pending
watcher 2 never runs.
-/
theorem runaway_cycle_guard :
    (flushSchedulerQueue (fun i => if i = 1 then [1] else []) (fun _ => true) (fun _ => "a.b") 200
        ⟨[1, 2], [1, 2], fun _ => 0, true, false, 0⟩).log =
      List.replicate (MAX_UPDATE_COUNT + 1) 1 ∧
    (flushSchedulerQueue (fun i => if i = 1 then [1] else []) (fun _ => true) (fun _ => "a.b") 200
        ⟨[1, 2], [1, 2], fun _ => 0, true, false, 0⟩).diag =
      some (circularWarn true ("a.b")) ∧
    2 ∉ (flushSchedulerQueue (fun i => if i = 1 then [1] else []) (fun _ => true) (fun _ => "a.b")
        200 ⟨[1, 2], [1, 2], fun _ => 0, true, false, 0⟩).log ∧
    (flushSchedulerQueue (fun i => if i = 1 then [1] else []) (fun _ => true) (fun _ => "a.b") 200
        ⟨[1, 2], [1, 2], fun _ => 0, true, false, 0⟩).completed = true ∧
    circularWarn true ("a.b") =
      "You may have an infinite update loop in watcher with expression \"a.b\"" ∧
    circularWarn false ("a.b") =
      "You may have an infinite update loop in a component render function." := by
  have hms : List.mergeSort [1, 2] (fun a b => a ≤ b) = [1, 2] :=
    List.mergeSort_of_sorted (by simp)
  simp only [flushSchedulerQueue, hms]
  decide

end Vue
